import Mathlib

/-! Milestone dependency & progress engine — formal model.

Shallow embedding of the goal/milestone progress engine of the
Goal_Based_Learning_Platform repository:

* `backend/src/models/Goal.js` — `updateProgress`, `completeMilestone`;
* `backend/src/routes/goals.js` — the milestone-completion route
  (`PUT /api/goals/:id/milestones/:milestoneId`) and the dependency-edit
  route (`PUT /api/goals/:id/milestones/:milestoneId/dependencies`);
* the goal-details page (client component) — `isMilestoneBlocked`,
  `toggleMilestone`, `persistMilestones`, `addDependency`, and the
  stored-goal normalization in its load effect.

JavaScript numbers are IEEE-754 binary64.  The progress formula
`Math.round((completed / total) * 100)` performs two double roundings
(the division and the multiplication) before `Math.round`; we model the
binary64 value of each intermediate result exactly (`doubleFrac`), so
theorems about `jsPercent` are theorems about what the JavaScript
actually computes.  All values that arise (`k/n` and `100 * k/n` for
positive `n`) are strictly positive or zero and lie far inside the
normal range of binary64, so overflow and subnormals never occur and
`doubleFrac` agrees with IEEE round-to-nearest, ties-to-even.
-/

namespace GoalPlatform

/-- Goal status enum from the Mongoose schema
(`['planning', 'active', 'paused', 'completed', 'cancelled']`). -/
inductive Status where
  | planning
  | active
  | paused
  | completed
  | cancelled
deriving DecidableEq, Repr

/-- A milestone subdocument.  Fields the engine reads: `id` (subdocument
`_id`), `title`, `order`, `dependencies` (list of milestone ids),
`isCompleted`, `completedAt`.  Inert descriptive fields of the schema
(`description`, `type`, `estimatedDuration`, `resources`,
`learningObjectives`, `assessmentCriteria`) are carried by no operation
modeled here and are omitted.  Timestamps are abstract `Nat` ticks. -/
structure Milestone where
  id : String
  title : String
  order : Nat
  dependencies : List String
  isCompleted : Bool
  completedAt : Option Nat
deriving DecidableEq, Repr

/-- A goal document.  Fields the progress engine reads or writes:
`status`, `progress`, `milestones`, `completedMilestones`, and
`actualDuration.completedAt` (flattened to `actualCompletedAt`).
Descriptive metadata (`title`, `description`, `category`, ...) is inert
for every modeled operation and is omitted. -/
structure Goal where
  status : Status
  progress : Int
  milestones : List Milestone
  completedMilestones : Nat
  actualCompletedAt : Option Nat
deriving DecidableEq, Repr

/-! ## Exact model of the JavaScript double arithmetic

JavaScript evaluates `Math.round((completed / total) * 100)` in IEEE-754
binary64: the quotient is rounded to the nearest double (ties to even),
the product with 100 is rounded to the nearest double, and `Math.round`
rounds half toward `+∞`.  Every double is a dyadic rational; for the
positive values arising here (quotients in `(0, 1]` scaled by 100, far
inside the normal range) the nearest double to a positive rational `q`
is `m * 2 ^ (e - 52)` where `2 ^ e ≤ q < 2 ^ (e + 1)` and `m` is
`q * 2 ^ (52 - e) ∈ [2^52, 2^53)` rounded to the nearest integer, ties
to even.  We model this exactly with natural-number arithmetic:
fractions are numerator/denominator pairs and doubles are
mantissa/exponent pairs `(m, e)` of value `m * 2 ^ e`. -/

/-- Round the fraction `a / b` (with `b > 0`) to the nearest natural
number, ties to even: the significand rounding of binary64. -/
def rneFrac (a b : ℕ) : ℕ :=
  if 2 * (a % b) < b then a / b
  else if b < 2 * (a % b) then a / b + 1
  else if a / b % 2 = 0 then a / b else a / b + 1

/-- Floor of `log₂ n` by repeated halving, with an explicit fuel argument so
that the recursion is structural. -/
def log2Fuel : ℕ → ℕ → ℕ
  | 0, _ => 0
  | fuel + 1, n => if n ≤ 1 then 0 else log2Fuel fuel (n / 2) + 1

/-- Floor of `log₂ n` for `n ≥ 1` (and 0 at 0): `n` itself is enough fuel. -/
def natLog2 (n : ℕ) : ℕ := log2Fuel n n

/-- Floor of `log₂ (a / b)` for `a, b ≥ 1`, from the bit lengths of `a` and
`b` and one cross-multiplied comparison. -/
def qlog2 (a b : ℕ) : ℤ :=
  if b * 2 ^ natLog2 a ≤ a * 2 ^ natLog2 b then (natLog2 a : ℤ) - natLog2 b
  else (natLog2 a : ℤ) - natLog2 b - 1

/-- The binary64 double nearest to `a / b` (with `b > 0`), as a
mantissa/exponent pair of value `m * 2 ^ e`: scale `a / b` by
`2 ^ (52 - ⌊log₂ (a/b)⌋)` into `[2^52, 2^53)` and round to the nearest
integer, ties to even.  `doubleFrac 0 b = (0, 0)`. -/
def doubleFrac (a b : ℕ) : ℕ × ℤ :=
  if a = 0 then (0, 0)
  else
    match 52 - qlog2 a b with
    | .ofNat t => (rneFrac (a * 2 ^ t) b, qlog2 a b - 52)
    | .negSucc t => (rneFrac a (b * 2 ^ (t + 1)), qlog2 a b - 52)

/-- Multiply the double `(m, e)` by the (exactly representable) constant
100, as a fraction: the exact product `100 * m * 2 ^ e`, which binary64
then rounds again. -/
def mul100 (d : ℕ × ℤ) : ℕ × ℕ :=
  match d.2 with
  | .ofNat t => (100 * d.1 * 2 ^ t, 1)
  | .negSucc t => (100 * d.1, 2 ^ (t + 1))

/-- JavaScript `Math.round` (round half toward `+∞`) on the nonnegative
double `(m, e)`: `⌊m * 2 ^ e + 1/2⌋`. -/
def mathRoundDy (m : ℕ) (e : ℤ) : ℕ :=
  match e with
  | .ofNat t => m * 2 ^ t
  | .negSucc t => (2 * m + 2 ^ (t + 1)) / 2 ^ (t + 2)

/-- Value of `Math.round((completed / total) * 100)` as JavaScript evaluates it
(the code only evaluates this with `total > 0`): round the quotient to
a double, round the product with 100 to a double, then round half up. -/
def jsPercent (completed total : ℕ) : ℕ :=
  let d1 := doubleFrac completed total
  let p := mul100 d1
  let d2 := doubleFrac p.1 p.2
  mathRoundDy d2.1 d2.2

/-- Round-half-up of the exact percentage `100 * completed / total`, as
the spec's words describe the progress formula
(`round(100 * completedCount / total)`, round-half-up on the
percentage).  This is the spec-side definition, to be compared with the
code-side `jsPercent`. -/
def specRound (completed total : ℕ) : ℤ :=
  ⌊(100 * completed : ℚ) / (total : ℚ) + 1 / 2⌋

/-- Computable form of `specRound`: `⌊(200k + n) / 2n⌋` by natural
division. -/
def specRoundNat (completed total : ℕ) : ℕ :=
  (200 * completed + total) / (2 * total)

/-! ## Rational values of fractions and dyadics (proof layer) -/

/-- The rational value of the fraction `a / b`. -/
def fracVal (a b : ℕ) : ℚ := (a : ℚ) / (b : ℚ)

/-- The rational value of the mantissa/exponent pair `(m, e)`. -/
def dyVal (d : ℕ × ℤ) : ℚ := (d.1 : ℚ) * 2 ^ d.2

/-! ## Methods of `Goal.js` -/

/-- Count of completed milestones: `this.milestones.filter(m => m.isCompleted).length`. -/
def countCompleted (ms : List Milestone) : Nat :=
  (ms.filter (fun m => m.isCompleted)).length

/-- Method `goalSchema.methods.updateProgress` (`backend/src/models/Goal.js`):
recompute `completedMilestones` and `progress`, then apply the status
transitions.  `now` stands for `new Date()`. -/
def updateProgress (now : Nat) (g : Goal) : Goal :=
  let completed := countCompleted g.milestones
  let prog : Int :=
    if g.milestones.length > 0 then (jsPercent completed g.milestones.length : Int) else 0
  let g' : Goal := { g with completedMilestones := completed, progress := prog }
  if prog = 100 ∧ g.status ≠ Status.completed then
    { g' with status := Status.completed, actualCompletedAt := some now }
  else if prog > 0 ∧ g.status = Status.planning then
    { g' with status := Status.active }
  else g'

/-- Lookup `this.milestones.id(milestoneId)`: Mongoose subdocument lookup,
first subdocument whose `_id` matches. -/
def findMilestone (ms : List Milestone) (mid : String) : Option Milestone :=
  ms.find? (fun m => m.id = mid)

/-- The mutation performed by `goalSchema.methods.completeMilestone` on
the subdocument returned by `.id(milestoneId)`: set `isCompleted = true`
and `completedAt = now` on the first milestone with the given id. -/
def setCompletedFirst : List Milestone → String → Nat → List Milestone
  | [], _, _ => []
  | m :: ms, mid, now =>
      if m.id = mid then { m with isCompleted := true, completedAt := some now } :: ms
      else m :: setCompletedFirst ms mid now

/-- Method `goalSchema.methods.completeMilestone`: resolve the milestone, mark
it completed, and run `updateProgress`; throws (`.error`) when the
milestone id does not resolve. -/
def completeMilestone (now : Nat) (g : Goal) (mid : String) : Except String Goal :=
  match findMilestone g.milestones mid with
  | some _ =>
      .ok (updateProgress now { g with milestones := setCompletedFirst g.milestones mid now })
  | none => .error "Milestone not found"

/-! ## Routes of `routes/goals.js`: milestone completion and dependency edits -/

/-- Error responses of the two milestone routes.  `dependenciesUnmet`
carries the list built by the route
(`unmetDependencies.push(depMilestone?.title || depId)`). -/
inductive RouteError where
  | milestoneNotFound
  | alreadyCompleted
  | dependenciesUnmet (unmet : List String)
deriving DecidableEq, Repr

/-- The unmet-dependency list of
`PUT /api/goals/:id/milestones/:milestoneId`: for each dependency id, a
dependency that does not resolve or resolves to an incomplete milestone
is pushed as `depMilestone?.title || depId` (the resolved title when
present and non-empty, the raw id otherwise). -/
def unmetDependencies (g : Goal) (m : Milestone) : List String :=
  m.dependencies.filterMap (fun depId =>
    match findMilestone g.milestones depId with
    | some depMilestone =>
        if depMilestone.isCompleted then none
        else some (if depMilestone.title = "" then depId else depMilestone.title)
    | none => some depId)

/-- Handler of `PUT /api/goals/:id/milestones/:milestoneId` after the goal has been
loaded: resolve the milestone (404), reject re-completion (400), reject
when the unmet-dependency list is non-empty (400), otherwise run
`goal.completeMilestone` and respond with the updated goal.  The `catch`
branch around `completeMilestone` is unreachable here because the
milestone was already resolved. -/
def completeMilestoneRoute (now : Nat) (g : Goal) (mid : String) : Except RouteError Goal :=
  match findMilestone g.milestones mid with
  | none => .error .milestoneNotFound
  | some m =>
      if m.isCompleted then .error .alreadyCompleted
      else
        let unmet := unmetDependencies g m
        if unmet ≠ [] then .error (.dependenciesUnmet unmet)
        else
          match completeMilestone now g mid with
          | .ok g' => .ok g'
          | .error _ => .error .milestoneNotFound

/-- The goal record the store holds after the completion request: the
route saves only on the success path, so on every error response the
stored goal is the one that was loaded. -/
def storedAfterRoute (now : Nat) (g : Goal) (mid : String) : Goal :=
  match completeMilestoneRoute now g mid with
  | .ok g' => g'
  | .error _ => g

/-- Overwrite the `dependencies` of the first milestone with the given
id (the assignment `milestone.dependencies = validDependencies` on the
subdocument returned by `.id(milestoneId)`). -/
def setDepsFirst : List Milestone → String → List String → List Milestone
  | [], _, _ => []
  | m :: ms, mid, deps =>
      if m.id = mid then { m with dependencies := deps } :: ms
      else m :: setDepsFirst ms mid deps

/-- Handler of `PUT /api/goals/:id/milestones/:milestoneId/dependencies` after the
goal has been loaded: resolve the milestone (404), keep only candidate
ids that resolve to a milestone of the goal and differ from the edited
milestone's own id, and overwrite the dependency list with the filtered
candidates.  No error is ever produced for dropped candidates. -/
def setDependenciesRoute (g : Goal) (mid : String) (dependencies : List String) :
    Except RouteError Goal :=
  match findMilestone g.milestones mid with
  | none => .error .milestoneNotFound
  | some _ =>
      let validDependencies := dependencies.filter (fun depId =>
        (findMilestone g.milestones depId).isSome && depId ≠ mid)
      .ok { g with milestones := setDepsFirst g.milestones mid validDependencies }

/-! ## The goal-details page (client component) -/

/-- Function `isMilestoneBlocked` of the goal-details page: a completed milestone
is never blocked; otherwise the milestone is blocked iff some dependency
id resolves (`depMilestone && ...`) to an incomplete milestone.  A
dependency id that does not resolve contributes `false`. -/
def isMilestoneBlocked (milestoneList : List Milestone) (m : Milestone) : Bool :=
  if m.isCompleted then false
  else m.dependencies.any (fun depId =>
    match milestoneList.find? (fun mm => mm.id = depId) with
    | some depMilestone => !depMilestone.isCompleted
    | none => false)

/-- Function `toggleMilestone` of the goal-details page, on the milestone list:
refuse (alert) when an incomplete milestone is blocked, otherwise flip
`isCompleted` of the indexed milestone.  (The accompanying goal-progress
update and the progress-ledger notification do not change the list.) -/
def toggleMilestone (milestoneList : List Milestone) (index : Nat) : List Milestone :=
  match milestoneList[index]? with
  | none => milestoneList
  | some m =>
      if !m.isCompleted && isMilestoneBlocked milestoneList m then milestoneList
      else milestoneList.set index { m with isCompleted := !m.isCompleted }

/-- The progress value `persistMilestones` writes for the matching
stored goal: recompute from the updated list when it is non-empty,
otherwise keep the previous value (`g.progress || 0`, which on an
integer progress is the previous value). -/
def persistProgress (updatedList : List Milestone) (prevProgress : Int) : Int :=
  if updatedList.length > 0 then (jsPercent (countCompleted updatedList) updatedList.length : Int)
  else prevProgress

/-- Function `addDependency` of the goal-details page: append the dependency id
to the milestone with the given id, with no validation of any kind. -/
def addDependency (milestoneList : List Milestone) (milestoneId dependencyId : String) :
    List Milestone :=
  milestoneList.map (fun m =>
    if m.id = milestoneId then { m with dependencies := m.dependencies ++ [dependencyId] }
    else m)

/-! ## Stored-goal normalization of the goal-details page load effect -/

/-- A stored goal record as the load effect reads it: `status` is any
string or absent, `progress` is a number (`some`) or a value that is not
number-typed (`none`). -/
structure StoredGoal where
  status : Option String
  progress : Option ℚ

/-- The normalized in-page pair of fields the claims concern. -/
structure PageGoal where
  status : String
  progress : ℚ
deriving DecidableEq, Repr

/-- The normalization the load effect applies to a stored record:
`["active", "completed", "paused"].includes(g.status) ? g.status :
"active"` and `typeof g.progress === "number" ? g.progress : 0`. -/
def normalizeStoredGoal (g : StoredGoal) : PageGoal :=
  { status :=
      match g.status with
      | some v => if v = "active" ∨ v = "completed" ∨ v = "paused" then v else "active"
      | none => "active"
    progress :=
      match g.progress with
      | some p => p
      | none => 0 }

/-! ## Sequences of completion requests -/

/-- The stored goal after a sequence of completion requests handled by
the milestone-completion route. -/
def runCompletions (now : Nat) (g : Goal) (mids : List String) : Goal :=
  mids.foldl (fun acc mid => storedAfterRoute now acc mid) g

/-- The progress value `updateProgress` derives from a milestone
list. -/
def progOf (ms : List Milestone) : Int :=
  if ms.length > 0 then (jsPercent (countCompleted ms) ms.length : Int) else 0

/-- A goal whose stored `progress` agrees with its milestone state:
what any run of `updateProgress` (and hence any successful completion)
establishes. -/
def Synced (g : Goal) : Prop :=
  g.progress = progOf g.milestones

/-! ## Correctness of the binary-logarithm helper -/

theorem log2Fuel_spec :
    ∀ fuel n : ℕ, 1 ≤ n → n ≤ fuel →
      2 ^ log2Fuel fuel n ≤ n ∧ n < 2 ^ (log2Fuel fuel n + 1) := by
  intro fuel
  induction fuel with
  | zero => intro n h1 h2; omega
  | succ fuel ih =>
      intro n h1 h2
      by_cases hn : n ≤ 1
      · have : n = 1 := by omega
        subst this
        simp [log2Fuel]
      · have h2' : 2 ≤ n := by omega
        have hrec : 1 ≤ n / 2 := by omega
        have hfuel : n / 2 ≤ fuel := by omega
        obtain ⟨ihl, ihr⟩ := ih (n / 2) hrec hfuel
        have heq : log2Fuel (fuel + 1) n = log2Fuel fuel (n / 2) + 1 := by
          simp [log2Fuel, hn]
        rw [heq]
        constructor
        · calc 2 ^ (log2Fuel fuel (n / 2) + 1) = 2 * 2 ^ log2Fuel fuel (n / 2) := by ring
            _ ≤ 2 * (n / 2) := by omega
            _ ≤ n := by omega
        · have : n < 2 * (n / 2) + 2 := by omega
          calc n < 2 * (n / 2) + 2 := this
            _ ≤ 2 * 2 ^ (log2Fuel fuel (n / 2) + 1) := by omega
            _ = 2 ^ (log2Fuel fuel (n / 2) + 1 + 1) := by ring

theorem natLog2_spec (n : ℕ) (h : 1 ≤ n) :
    2 ^ natLog2 n ≤ n ∧ n < 2 ^ (natLog2 n + 1) :=
  log2Fuel_spec n n h le_rfl

theorem zpow_natCast_sub (L M : ℕ) :
    (2 : ℚ) ^ ((L : ℤ) - M) = (2 ^ L : ℚ) / (2 ^ M : ℚ) := by
  rw [zpow_sub₀ two_ne_zero, zpow_natCast, zpow_natCast]

theorem qlog2_spec (a b : ℕ) (ha : 0 < a) (hb : 0 < b) :
    (2 : ℚ) ^ qlog2 a b ≤ (a : ℚ) / b ∧ (a : ℚ) / b < (2 : ℚ) ^ (qlog2 a b + 1) := by
  obtain ⟨ha1, ha2⟩ := natLog2_spec a ha
  obtain ⟨hb1, hb2⟩ := natLog2_spec b hb
  have hbQ : (0 : ℚ) < (b : ℚ) := by exact_mod_cast hb
  unfold qlog2
  split_ifs with hcmp
  · constructor
    · rw [zpow_natCast_sub, div_le_div_iff₀ (by positivity) hbQ]
      have : 2 ^ natLog2 a * b ≤ a * 2 ^ natLog2 b := by
        calc 2 ^ natLog2 a * b = b * 2 ^ natLog2 a := by ring
          _ ≤ a * 2 ^ natLog2 b := hcmp
      exact_mod_cast this
    · have hexp : (natLog2 a : ℤ) - natLog2 b + 1 = ((natLog2 a + 1 : ℕ) : ℤ) - natLog2 b := by
        push_cast; ring
      rw [hexp, zpow_natCast_sub, div_lt_div_iff₀ hbQ (by positivity)]
      have : a * 2 ^ natLog2 b < 2 ^ (natLog2 a + 1) * b := by
        calc a * 2 ^ natLog2 b < 2 ^ (natLog2 a + 1) * 2 ^ natLog2 b :=
              Nat.mul_lt_mul_of_lt_of_le ha2 le_rfl (Nat.pos_pow_of_pos _ two_pos)
          _ ≤ 2 ^ (natLog2 a + 1) * b := Nat.mul_le_mul_left _ hb1
      exact_mod_cast this
  · have hcmp' : a * 2 ^ natLog2 b < b * 2 ^ natLog2 a := Nat.lt_of_not_le hcmp
    constructor
    · have hexp : (natLog2 a : ℤ) - natLog2 b - 1 = ((natLog2 a : ℕ) : ℤ) - ((natLog2 b + 1 : ℕ)) := by
        push_cast; ring
      rw [hexp, zpow_natCast_sub, div_le_div_iff₀ (by positivity) hbQ]
      have : 2 ^ natLog2 a * b ≤ a * 2 ^ (natLog2 b + 1) := by
        calc 2 ^ natLog2 a * b ≤ a * b := Nat.mul_le_mul_right _ ha1
          _ ≤ a * 2 ^ (natLog2 b + 1) := Nat.mul_le_mul_left _ (Nat.le_of_lt hb2)
      exact_mod_cast this
    · have hexp : (natLog2 a : ℤ) - natLog2 b - 1 + 1 = ((natLog2 a : ℕ) : ℤ) - natLog2 b := by
        ring
      rw [hexp, zpow_natCast_sub, div_lt_div_iff₀ hbQ (by positivity)]
      have : a * 2 ^ natLog2 b < 2 ^ natLog2 a * b := by
        calc a * 2 ^ natLog2 b < b * 2 ^ natLog2 a := hcmp'
          _ = 2 ^ natLog2 a * b := by ring
      exact_mod_cast this

/-! ## Round-to-nearest-even: bounds and monotonicity -/

theorem rneFrac_bounds (a b : ℕ) : a / b ≤ rneFrac a b ∧ rneFrac a b ≤ a / b + 1 := by
  unfold rneFrac
  split_ifs <;> omega

theorem natCast_div_add_mod (a b : ℕ) (hb : 0 < b) :
    ((a / b : ℕ) : ℚ) + ((a % b : ℕ) : ℚ) / b = (a : ℚ) / b := by
  have hb0 : (b : ℚ) ≠ 0 := by positivity
  field_simp
  have hdm : ((b * (a / b) + a % b : ℕ) : ℚ) = (a : ℚ) := by rw [Nat.div_add_mod]
  push_cast at hdm
  linear_combination hdm

theorem nat_div_eq_floor (a b : ℕ) : a / b = ⌊(a : ℚ) / b⌋₊ := by
  rw [Nat.floor_div_nat, Nat.floor_natCast]

theorem half_lt_iff (r b : ℕ) (hb : 0 < b) : 2 * r < b ↔ (r : ℚ) / b < 1 / 2 := by
  rw [div_lt_div_iff₀ (show (0 : ℚ) < b by exact_mod_cast hb) (show (0 : ℚ) < 2 by norm_num),
    one_mul, mul_comm]
  exact_mod_cast Iff.rfl

theorem lt_half_iff (r b : ℕ) (hb : 0 < b) : b < 2 * r ↔ 1 / 2 < (r : ℚ) / b := by
  rw [div_lt_div_iff₀ (show (0 : ℚ) < 2 by norm_num) (show (0 : ℚ) < b by exact_mod_cast hb),
    one_mul, mul_comm]
  exact_mod_cast Iff.rfl

theorem rneFrac_mono (a₁ b₁ a₂ b₂ : ℕ) (hb₁ : 0 < b₁) (hb₂ : 0 < b₂)
    (h : (a₁ : ℚ) / b₁ ≤ (a₂ : ℚ) / b₂) : rneFrac a₁ b₁ ≤ rneFrac a₂ b₂ := by
  have hq : a₁ / b₁ ≤ a₂ / b₂ := by
    rw [nat_div_eq_floor a₁ b₁, nat_div_eq_floor a₂ b₂]
    exact Nat.floor_mono h
  rcases Nat.lt_or_ge (a₁ / b₁) (a₂ / b₂) with hlt | hge
  · unfold rneFrac; split_ifs <;> omega
  · have heq : a₁ / b₁ = a₂ / b₂ := by omega
    have hrem : ((a₁ % b₁ : ℕ) : ℚ) / b₁ ≤ ((a₂ % b₂ : ℕ) : ℚ) / b₂ := by
      have h₁ := natCast_div_add_mod a₁ b₁ hb₁
      have h₂ := natCast_div_add_mod a₂ b₂ hb₂
      have hcast : ((a₁ / b₁ : ℕ) : ℚ) = ((a₂ / b₂ : ℕ) : ℚ) := by exact_mod_cast heq
      linarith
    have key₁ : ¬ 2 * (a₁ % b₁) < b₁ → ¬ 2 * (a₂ % b₂) < b₂ := by
      intro hP₁ hP₂
      have h1 : (1 : ℚ) / 2 ≤ ((a₁ % b₁ : ℕ) : ℚ) / b₁ := by
        by_contra hc
        exact hP₁ ((half_lt_iff _ _ hb₁).mpr (not_le.mp hc))
      have h2 : ((a₂ % b₂ : ℕ) : ℚ) / b₂ < 1 / 2 := (half_lt_iff _ _ hb₂).mp hP₂
      linarith
    have key₂ : b₁ < 2 * (a₁ % b₁) → b₂ < 2 * (a₂ % b₂) := by
      intro hQ₁
      exact (lt_half_iff _ _ hb₂).mpr (lt_of_lt_of_le ((lt_half_iff _ _ hb₁).mp hQ₁) hrem)
    unfold rneFrac
    split_ifs <;> omega

/-! ## Correctness and monotonicity of the binary64 rounding -/

theorem dyVal_nonneg (d : ℕ × ℤ) : 0 ≤ dyVal d := by
  unfold dyVal; positivity

theorem two_pow_natCast_rat (k : ℕ) : ((2 ^ k : ℕ) : ℚ) = (2 : ℚ) ^ (k : ℤ) := by
  push_cast
  rw [zpow_natCast]

theorem doubleFrac_spec (a b : ℕ) (ha : 0 < a) (hb : 0 < b) :
    ∃ num den : ℕ, 0 < den ∧
      (num : ℚ) / den = (a : ℚ) / b * 2 ^ ((52 : ℤ) - qlog2 a b) ∧
      doubleFrac a b = (rneFrac num den, qlog2 a b - 52) := by
  rcases h52 : (52 : ℤ) - qlog2 a b with t | t
  · refine ⟨a * 2 ^ t, b, hb, ?_, ?_⟩
    · rw [show (Int.ofNat t) = ((t : ℕ) : ℤ) from rfl, zpow_natCast]
      push_cast
      ring
    · unfold doubleFrac
      rw [if_neg (by omega), h52]
  · refine ⟨a, b * 2 ^ (t + 1), by positivity, ?_, ?_⟩
    · rw [zpow_negSucc]
      push_cast
      rw [div_mul_eq_div_div, div_eq_mul_inv]
    · unfold doubleFrac
      rw [if_neg (by omega), h52]

theorem doubleFrac_mantissa (a b : ℕ) (ha : 0 < a) (hb : 0 < b) :
    2 ^ 52 ≤ (doubleFrac a b).1 ∧ (doubleFrac a b).1 ≤ 2 ^ 53 := by
  obtain ⟨num, den, hden, hval, heq⟩ := doubleFrac_spec a b ha hb
  obtain ⟨hlog1, hlog2⟩ := qlog2_spec a b ha hb
  have hs_lower : ((2 ^ 52 : ℕ) : ℚ) ≤ (num : ℚ) / den := by
    rw [hval]
    have h1 : ((2 ^ 52 : ℕ) : ℚ) = (2 : ℚ) ^ (qlog2 a b) * 2 ^ ((52 : ℤ) - qlog2 a b) := by
      rw [two_pow_natCast_rat, ← zpow_add₀ (two_ne_zero)]
      congr 1
      ring
    rw [h1]
    exact mul_le_mul_of_nonneg_right hlog1 (by positivity)
  have hs_upper : (num : ℚ) / den < ((2 ^ 53 : ℕ) : ℚ) := by
    rw [hval]
    have h1 : ((2 ^ 53 : ℕ) : ℚ) = (2 : ℚ) ^ (qlog2 a b + 1) * 2 ^ ((52 : ℤ) - qlog2 a b) := by
      rw [two_pow_natCast_rat, ← zpow_add₀ (two_ne_zero)]
      congr 1
      ring
    rw [h1]
    exact mul_lt_mul_of_pos_right hlog2 (by positivity)
  have hfloor_lower : 2 ^ 52 ≤ num / den := by
    rw [nat_div_eq_floor]
    exact Nat.le_floor hs_lower
  have hfloor_upper : num / den < 2 ^ 53 := by
    rw [nat_div_eq_floor]
    rw [Nat.floor_lt (by positivity)]
    exact hs_upper
  obtain ⟨hrl, hru⟩ := rneFrac_bounds num den
  rw [heq]
  constructor
  · exact le_trans hfloor_lower hrl
  · omega

theorem doubleFrac_exponent (a b : ℕ) (ha : 0 < a) (hb : 0 < b) :
    (doubleFrac a b).2 = qlog2 a b - 52 := by
  obtain ⟨num, den, _, _, heq⟩ := doubleFrac_spec a b ha hb
  rw [heq]

theorem dyVal_doubleFrac_bounds (a b : ℕ) (ha : 0 < a) (hb : 0 < b) :
    (2 : ℚ) ^ qlog2 a b ≤ dyVal (doubleFrac a b) ∧
      dyVal (doubleFrac a b) ≤ 2 ^ (qlog2 a b + 1) := by
  obtain ⟨hm1, hm2⟩ := doubleFrac_mantissa a b ha hb
  have hexp := doubleFrac_exponent a b ha hb
  unfold dyVal
  rw [hexp]
  constructor
  · calc (2 : ℚ) ^ qlog2 a b = ((2 ^ 52 : ℕ) : ℚ) * 2 ^ (qlog2 a b - 52) := by
          rw [two_pow_natCast_rat, ← zpow_add₀ (two_ne_zero)]
          congr 1
          ring
      _ ≤ ((doubleFrac a b).1 : ℚ) * 2 ^ (qlog2 a b - 52) :=
          mul_le_mul_of_nonneg_right (by exact_mod_cast hm1) (by positivity)
  · calc ((doubleFrac a b).1 : ℚ) * 2 ^ (qlog2 a b - 52)
        ≤ ((2 ^ 53 : ℕ) : ℚ) * 2 ^ (qlog2 a b - 52) :=
          mul_le_mul_of_nonneg_right (by exact_mod_cast hm2) (by positivity)
      _ = 2 ^ (qlog2 a b + 1) := by
          rw [two_pow_natCast_rat, ← zpow_add₀ (two_ne_zero)]
          congr 1
          ring

theorem doubleFrac_mono (a₁ b₁ a₂ b₂ : ℕ) (hb₁ : 0 < b₁) (hb₂ : 0 < b₂)
    (h : (a₁ : ℚ) / b₁ ≤ (a₂ : ℚ) / b₂) :
    dyVal (doubleFrac a₁ b₁) ≤ dyVal (doubleFrac a₂ b₂) := by
  rcases Nat.eq_zero_or_pos a₁ with rfl | ha₁
  · have h0 : doubleFrac 0 b₁ = (0, 0) := by unfold doubleFrac; simp
    rw [h0]
    have : dyVal ((0 : ℕ), (0 : ℤ)) = 0 := by unfold dyVal; simp
    rw [this]
    exact dyVal_nonneg _
  · have ha₂ : 0 < a₂ := by
      by_contra hc
      have hz : a₂ = 0 := by omega
      subst hz
      have hpos : (0 : ℚ) < (a₁ : ℚ) / b₁ := by positivity
      simp only [Nat.cast_zero, zero_div] at h
      linarith
    have he : qlog2 a₁ b₁ ≤ qlog2 a₂ b₂ := by
      by_contra hc
      push_neg at hc
      obtain ⟨l₁, _⟩ := qlog2_spec a₁ b₁ ha₁ hb₁
      obtain ⟨_, u₂⟩ := qlog2_spec a₂ b₂ ha₂ hb₂
      have hle : (2 : ℚ) ^ qlog2 a₁ b₁ < 2 ^ (qlog2 a₂ b₂ + 1) :=
        lt_of_le_of_lt (le_trans l₁ h) u₂
      have := (zpow_lt_zpow_iff_right₀ (by norm_num : (1 : ℚ) < 2)).mp hle
      omega
    rcases eq_or_lt_of_le he with heq | hlt
    · obtain ⟨n₁, d₁, hd₁, hv₁, he₁⟩ := doubleFrac_spec a₁ b₁ ha₁ hb₁
      obtain ⟨n₂, d₂, hd₂, hv₂, he₂⟩ := doubleFrac_spec a₂ b₂ ha₂ hb₂
      have hm : rneFrac n₁ d₁ ≤ rneFrac n₂ d₂ := by
        apply rneFrac_mono _ _ _ _ hd₁ hd₂
        rw [hv₁, hv₂, heq]
        exact mul_le_mul_of_nonneg_right h (by positivity)
      rw [he₁, he₂, heq]
      unfold dyVal
      exact mul_le_mul_of_nonneg_right (by exact_mod_cast hm) (by positivity)
    · obtain ⟨_, hi₁⟩ := dyVal_doubleFrac_bounds a₁ b₁ ha₁ hb₁
      obtain ⟨lo₂, _⟩ := dyVal_doubleFrac_bounds a₂ b₂ ha₂ hb₂
      calc dyVal (doubleFrac a₁ b₁) ≤ 2 ^ (qlog2 a₁ b₁ + 1) := hi₁
        _ ≤ 2 ^ qlog2 a₂ b₂ :=
            zpow_le_zpow_right₀ (by norm_num : (1 : ℚ) ≤ 2) (by omega)
        _ ≤ dyVal (doubleFrac a₂ b₂) := lo₂

theorem mul100_den_pos (d : ℕ × ℤ) : 0 < (mul100 d).2 := by
  rcases d with ⟨m, e⟩
  cases e with
  | ofNat t => simp [mul100]
  | negSucc t => simp [mul100]

theorem mul100_val (d : ℕ × ℤ) :
    ((mul100 d).1 : ℚ) / ((mul100 d).2 : ℚ) = 100 * dyVal d := by
  rcases d with ⟨m, e⟩
  cases e with
  | ofNat t =>
      simp only [mul100, dyVal]
      rw [show (Int.ofNat t) = ((t : ℕ) : ℤ) from rfl, zpow_natCast]
      push_cast
      ring
  | negSucc t =>
      simp only [mul100, dyVal, zpow_negSucc]
      push_cast
      rw [div_eq_mul_inv]
      ring

theorem mathRoundDy_eq_floor (m : ℕ) (e : ℤ) :
    (mathRoundDy m e : ℤ) = ⌊dyVal (m, e) + 1 / 2⌋ := by
  cases e with
  | ofNat t =>
      simp only [mathRoundDy, dyVal]
      rw [show (Int.ofNat t) = ((t : ℕ) : ℤ) from rfl, zpow_natCast]
      rw [show (m : ℚ) * 2 ^ t = ((m * 2 ^ t : ℕ) : ℚ) by push_cast; ring]
      rw [add_comm, Int.floor_add_nat]
      norm_num
  | negSucc t =>
      simp only [mathRoundDy, dyVal, zpow_negSucc]
      have hval : (m : ℚ) * ((2 : ℚ) ^ (t + 1))⁻¹ + 1 / 2 =
          (((2 * m + 2 ^ (t + 1) : ℕ) : ℤ) : ℚ) / ((2 ^ (t + 2) : ℕ) : ℚ) := by
        push_cast
        field_simp
        ring
      rw [hval, Rat.floor_intCast_div_natCast]
      rw [← Int.natCast_div]

theorem mathRoundDy_mono (m₁ : ℕ) (e₁ : ℤ) (m₂ : ℕ) (e₂ : ℤ)
    (h : dyVal (m₁, e₁) ≤ dyVal (m₂, e₂)) : mathRoundDy m₁ e₁ ≤ mathRoundDy m₂ e₂ := by
  have h1 := mathRoundDy_eq_floor m₁ e₁
  have h2 := mathRoundDy_eq_floor m₂ e₂
  have hz : (mathRoundDy m₁ e₁ : ℤ) ≤ (mathRoundDy m₂ e₂ : ℤ) := by
    rw [h1, h2]
    exact Int.floor_le_floor (by linarith)
  exact_mod_cast hz

theorem jsPercent_mono (k₁ k₂ n : ℕ) (hn : 0 < n) (hk : k₁ ≤ k₂) :
    jsPercent k₁ n ≤ jsPercent k₂ n := by
  have hkQ : (k₁ : ℚ) ≤ (k₂ : ℚ) := by exact_mod_cast hk
  have hfrac : (k₁ : ℚ) / n ≤ (k₂ : ℚ) / n := by gcongr
  have h1 : dyVal (doubleFrac k₁ n) ≤ dyVal (doubleFrac k₂ n) :=
    doubleFrac_mono _ _ _ _ hn hn hfrac
  have h2 : ((mul100 (doubleFrac k₁ n)).1 : ℚ) / ((mul100 (doubleFrac k₁ n)).2 : ℚ) ≤
      ((mul100 (doubleFrac k₂ n)).1 : ℚ) / ((mul100 (doubleFrac k₂ n)).2 : ℚ) := by
    rw [mul100_val, mul100_val]
    linarith
  have h3 : dyVal (doubleFrac (mul100 (doubleFrac k₁ n)).1 (mul100 (doubleFrac k₁ n)).2) ≤
      dyVal (doubleFrac (mul100 (doubleFrac k₂ n)).1 (mul100 (doubleFrac k₂ n)).2) :=
    doubleFrac_mono _ _ _ _ (mul100_den_pos _) (mul100_den_pos _) h2
  simp only [jsPercent]
  exact mathRoundDy_mono _ _ _ _ h3

/-! ## Exhaustive agreement of the double computation with exact
round-half-up for all totals up to 39 (the divergence at `total = 40`,
`k = 23` is the smallest one) -/

set_option maxHeartbeats 2000000 in
theorem percentBall :
    ∀ n < 40, 0 < n → ∀ k ≤ n,
      jsPercent k n = specRoundNat k n ∧ (jsPercent k n = 100 ↔ k = n) ∧
        (0 < jsPercent k n ↔ 0 < k) := by decide

theorem specRound_eq_nat (k n : ℕ) (hn : 0 < n) :
    specRound k n = (specRoundNat k n : ℤ) := by
  unfold specRound specRoundNat
  have hn0 : (n : ℚ) ≠ 0 := by positivity
  have hQ : (100 * k : ℚ) / n + 1 / 2 = (((200 * k + n : ℕ) : ℤ) : ℚ) / ((2 * n : ℕ) : ℚ) := by
    push_cast
    field_simp
    ring
  rw [hQ, Rat.floor_intCast_div_natCast, ← Int.natCast_div]

/-! ## Structural lemmas about the engine operations -/

theorem countCompleted_le_length (ms : List Milestone) : countCompleted ms ≤ ms.length :=
  List.length_filter_le _ _

theorem countCompleted_cons (x : Milestone) (xs : List Milestone) :
    countCompleted (x :: xs) = (if x.isCompleted then 1 else 0) + countCompleted xs := by
  simp only [countCompleted, List.filter_cons]
  split_ifs <;> simp [Nat.add_comm]

theorem updateProgress_milestones (now : Nat) (g : Goal) :
    (updateProgress now g).milestones = g.milestones := by
  simp only [updateProgress]
  split_ifs <;> rfl

theorem updateProgress_completedMilestones (now : Nat) (g : Goal) :
    (updateProgress now g).completedMilestones = countCompleted g.milestones := by
  simp only [updateProgress]
  split_ifs <;> rfl

theorem updateProgress_progress (now : Nat) (g : Goal) :
    (updateProgress now g).progress = progOf g.milestones := by
  simp only [updateProgress, progOf]
  split_ifs <;> rfl

theorem updateProgress_eq (now : Nat) (g : Goal) :
    updateProgress now g =
      { status :=
          if progOf g.milestones = 100 ∧ g.status ≠ Status.completed then Status.completed
          else if progOf g.milestones > 0 ∧ g.status = Status.planning then Status.active
          else g.status,
        progress := progOf g.milestones,
        milestones := g.milestones,
        completedMilestones := countCompleted g.milestones,
        actualCompletedAt :=
          if progOf g.milestones = 100 ∧ g.status ≠ Status.completed then some now
          else g.actualCompletedAt } := by
  simp only [updateProgress, progOf]
  split_ifs <;> rfl

theorem updateProgress_synced (now : Nat) (g : Goal) : Synced (updateProgress now g) := by
  unfold Synced progOf
  rw [updateProgress_progress, updateProgress_milestones]
  rfl

theorem setCompletedFirst_length (ms : List Milestone) (mid : String) (now : Nat) :
    (setCompletedFirst ms mid now).length = ms.length := by
  induction ms with
  | nil => rfl
  | cons m ms ih =>
      unfold setCompletedFirst
      split_ifs <;> simp [ih]

theorem setCompletedFirst_count (ms : List Milestone) (mid : String) (now : Nat) (m : Milestone)
    (hfind : ms.find? (fun x => x.id = mid) = some m) (hnc : m.isCompleted = false) :
    countCompleted (setCompletedFirst ms mid now) = countCompleted ms + 1 := by
  induction ms with
  | nil => simp at hfind
  | cons a ms ih =>
      by_cases hid : a.id = mid
      · have ham : a = m := by
          have : (a :: ms).find? (fun x => x.id = mid) = some a :=
            List.find?_cons_of_pos _ (by simp [hid])
          rw [this] at hfind
          exact Option.some.inj hfind
        unfold setCompletedFirst
        rw [if_pos hid, countCompleted_cons, countCompleted_cons]
        subst ham
        simp [hnc]
        omega
      · have hfind' : ms.find? (fun x => x.id = mid) = some m := by
          rw [List.find?_cons_of_neg _ (by simp [hid])] at hfind
          exact hfind
        unfold setCompletedFirst
        rw [if_neg hid, countCompleted_cons, countCompleted_cons, ih hfind']
        omega

theorem findMilestone_mem (ms : List Milestone) (mid : String) (m : Milestone)
    (h : findMilestone ms mid = some m) : m ∈ ms :=
  List.mem_of_find?_eq_some h

theorem findMilestone_length_pos (ms : List Milestone) (mid : String) (m : Milestone)
    (h : findMilestone ms mid = some m) : 0 < ms.length :=
  List.length_pos.mpr (List.ne_nil_of_mem (findMilestone_mem ms mid m h))

/-! ## Claim theorems -/

/-- C9: once a goal's status is `completed`, progress recomputation never
changes the status away from `completed`, whatever the milestone state —
in particular even after a milestone has been reverted to incomplete
through an administrative path and the recomputed progress drops below
100. -/
theorem c9_completed_never_regresses (g : Goal) (now : Nat)
    (h : g.status = Status.completed) :
    (updateProgress now g).status = Status.completed := by
  rw [updateProgress_eq]
  dsimp only
  rw [h]
  rw [if_neg (by simp), if_neg (by simp)]

/-- C9 witness input: a completed goal one of whose milestones has been
reverted to incomplete. -/
def c9Goal : Goal :=
  { status := Status.completed, progress := 50,
    milestones :=
      [{ id := "a", title := "A", order := 0, dependencies := [], isCompleted := false,
         completedAt := none }],
    completedMilestones := 0, actualCompletedAt := some 1 }

theorem c9_witness : (updateProgress 0 c9Goal).status = Status.completed :=
  c9_completed_never_regresses c9Goal 0 rfl

/-- C10: the goal-details page normalization always yields a status in
`{active, completed, paused}`; any stored status outside that set
(including `planning` and `cancelled`) is replaced by `active`, and a
stored progress that is not number-typed is replaced by 0 while a
numeric progress is kept. -/
theorem c10_normalization (g : StoredGoal) :
    ((normalizeStoredGoal g).status = "active" ∨ (normalizeStoredGoal g).status = "completed" ∨
      (normalizeStoredGoal g).status = "paused") ∧
    (∀ v, g.status = some v → v ≠ "active" → v ≠ "completed" → v ≠ "paused" →
      (normalizeStoredGoal g).status = "active") ∧
    (g.progress = none → (normalizeStoredGoal g).progress = 0) ∧
    (∀ p, g.progress = some p → (normalizeStoredGoal g).progress = p) := by
  obtain ⟨s, p⟩ := g
  refine ⟨?_, ?_, ?_, ?_⟩
  · cases s with
    | none => left; rfl
    | some v =>
        simp only [normalizeStoredGoal]
        split_ifs with h
        · exact h
        · left; rfl
  · intro v hv h1 h2 h3
    cases s with
    | none => simp at hv
    | some w =>
        obtain rfl : w = v := by simpa using hv
        simp only [normalizeStoredGoal]
        rw [if_neg]
        rintro (h | h | h)
        · exact h1 h
        · exact h2 h
        · exact h3 h
  · intro hp
    simp only at hp
    subst hp
    rfl
  · intro q hq
    simp only at hq
    subst hq
    rfl

theorem c10_witness :
    (normalizeStoredGoal { status := some "planning", progress := none }).status = "active" ∧
      (normalizeStoredGoal { status := some "planning", progress := none }).progress = 0 :=
  ⟨(c10_normalization _).2.1 "planning" rfl (by decide) (by decide) (by decide),
    (c10_normalization _).2.2.1 rfl⟩

/-- C2: `isMilestoneBlocked` is `false` on any completed milestone
regardless of dependency state; and on an incomplete milestone with a
non-empty dependency set all of whose dependency ids resolve, it is
`true` iff at least one dependency resolves to an incomplete
milestone. -/
theorem c2_blocking_correctness (milestoneList : List Milestone) (m : Milestone) :
    (m.isCompleted = true → isMilestoneBlocked milestoneList m = false) ∧
    (m.isCompleted = false → m.dependencies ≠ [] →
      (∀ depId ∈ m.dependencies, (milestoneList.find? (fun mm => mm.id = depId)).isSome) →
      (isMilestoneBlocked milestoneList m = true ↔
        ∃ depId ∈ m.dependencies, ∃ dm,
          milestoneList.find? (fun mm => mm.id = depId) = some dm ∧ dm.isCompleted = false)) := by
  constructor
  · intro h
    simp [isMilestoneBlocked, h]
  · intro h _ hres
    simp only [isMilestoneBlocked, h, Bool.false_eq_true, if_false, List.any_eq_true]
    constructor
    · rintro ⟨depId, hmem, hp⟩
      refine ⟨depId, hmem, ?_⟩
      rcases hfind : milestoneList.find? (fun mm => mm.id = depId) with _ | dm
      · rw [hfind] at hp
        simp at hp
      · rw [hfind] at hp
        exact ⟨dm, hfind, by simpa using hp⟩
    · rintro ⟨depId, hmem, dm, hfind, hdm⟩
      refine ⟨depId, hmem, ?_⟩
      rw [hfind]
      simp [hdm]

theorem c2_witness :
    isMilestoneBlocked
      [{ id := "a", title := "A", order := 0, dependencies := [], isCompleted := false,
          completedAt := none },
        { id := "b", title := "B", order := 1, dependencies := ["a"], isCompleted := false,
          completedAt := none }]
      { id := "b", title := "B", order := 1, dependencies := ["a"], isCompleted := false,
        completedAt := none } = true :=
  ((c2_blocking_correctness _ _).2 rfl (by decide) (by decide)).mpr
    ⟨"a", by decide,
      { id := "a", title := "A", order := 0, dependencies := [], isCompleted := false,
        completedAt := none }, by decide, rfl⟩

/-- C3 counterexample input: an incomplete milestone whose only
dependency id resolves to no milestone in the list. -/
def c3M : Milestone :=
  { id := "m1", title := "Milestone 1", order := 0, dependencies := ["ghost"],
    isCompleted := false, completedAt := none }

/-- C3 counterexample: the claim says a milestone with a dangling
dependency id is considered blocked and its completion refused; on the
goal-details page the milestone is NOT blocked and the toggle completes
it. -/
theorem c3_counterexample :
    isMilestoneBlocked [c3M] c3M = false ∧
      toggleMilestone [c3M] 0 = [{ c3M with isCompleted := true }] := by decide

/-- C3 amended: the two engines disagree.  The backend completion route
fails closed — a dependency id that resolves to no milestone is pushed
onto the unmet list and completion is refused — while the frontend
`isMilestoneBlocked` fails open: an unresolved dependency id contributes
nothing, so a milestone none of whose dependency ids resolve to an
incomplete milestone is not considered blocked. -/
theorem c3_amended (now : Nat) (g : Goal) (mid : String) (m : Milestone) (depId : String)
    (hfind : findMilestone g.milestones mid = some m) (hnc : m.isCompleted = false)
    (hdep : depId ∈ m.dependencies) (hdangling : findMilestone g.milestones depId = none) :
    (∃ unmet, completeMilestoneRoute now g mid = .error (.dependenciesUnmet unmet) ∧
      depId ∈ unmet) ∧
    (∀ (milestoneList : List Milestone) (m' : Milestone), m'.isCompleted = false →
      (∀ d ∈ m'.dependencies, ∀ dm,
        milestoneList.find? (fun mm => mm.id = d) = some dm → dm.isCompleted = true) →
      isMilestoneBlocked milestoneList m' = false) := by
  constructor
  · have hmem : depId ∈ unmetDependencies g m := by
      apply List.mem_filterMap.mpr
      refine ⟨depId, hdep, ?_⟩
      rw [hdangling]
    refine ⟨unmetDependencies g m, ?_, hmem⟩
    simp only [completeMilestoneRoute, hfind, hnc, Bool.false_eq_true, if_false]
    rw [if_pos (List.ne_nil_of_mem hmem)]
  · intro l m' hm' hres
    simp only [isMilestoneBlocked, hm', Bool.false_eq_true, if_false, List.any_eq_false]
    intro d hd
    rcases hfd : l.find? (fun mm => mm.id = d) with _ | dm
    · rw [hfd]
      simp
    · rw [hfd]
      simp [hres d hd dm hfd]

/-- C3 amended witness input: a goal holding only the dangling-dependency
milestone. -/
def c3Goal : Goal :=
  { status := Status.active, progress := 0, milestones := [c3M],
    completedMilestones := 0, actualCompletedAt := none }

theorem c3_amended_witness :
    (∃ unmet, completeMilestoneRoute 0 c3Goal "m1" = .error (.dependenciesUnmet unmet) ∧
      "ghost" ∈ unmet) ∧
    (∀ (milestoneList : List Milestone) (m' : Milestone), m'.isCompleted = false →
      (∀ d ∈ m'.dependencies, ∀ dm,
        milestoneList.find? (fun mm => mm.id = d) = some dm → dm.isCompleted = true) →
      isMilestoneBlocked milestoneList m' = false) :=
  c3_amended 0 c3Goal "m1" c3M "ghost" rfl rfl (by decide) rfl

/-- C4: completing a milestone with at least one incomplete (resolved)
dependency always makes the route answer `DependenciesUnmet` carrying
the route's unmet list (titles of resolved unmet dependencies, raw ids
of dangling ones), the list is non-empty, and the stored goal is exactly
the one that was loaded — nothing is partially applied. -/
theorem c4_unmet_refused (now : Nat) (g : Goal) (mid : String) (m : Milestone)
    (hfind : findMilestone g.milestones mid = some m) (hnc : m.isCompleted = false)
    (hblocked : ∃ depId ∈ m.dependencies, ∃ dm,
      findMilestone g.milestones depId = some dm ∧ dm.isCompleted = false) :
    completeMilestoneRoute now g mid = .error (.dependenciesUnmet (unmetDependencies g m)) ∧
    unmetDependencies g m ≠ [] ∧
    storedAfterRoute now g mid = g := by
  obtain ⟨depId, hdep, dm, hfd, hdm⟩ := hblocked
  have hmem : (if dm.title = "" then depId else dm.title) ∈ unmetDependencies g m := by
    apply List.mem_filterMap.mpr
    refine ⟨depId, hdep, ?_⟩
    rw [hfd]
    simp [hdm]
  have hne : unmetDependencies g m ≠ [] := List.ne_nil_of_mem hmem
  have hroute :
      completeMilestoneRoute now g mid = .error (.dependenciesUnmet (unmetDependencies g m)) := by
    simp only [completeMilestoneRoute, hfind, hnc, Bool.false_eq_true, if_false]
    rw [if_pos hne]
  refine ⟨hroute, hne, ?_⟩
  unfold storedAfterRoute
  rw [hroute]

/-- C4 witness inputs: milestone `b` depends on the incomplete
milestone `a`. -/
def c4A : Milestone :=
  { id := "a", title := "Learn A", order := 0, dependencies := [], isCompleted := false,
    completedAt := none }

def c4B : Milestone :=
  { id := "b", title := "Learn B", order := 1, dependencies := ["a"], isCompleted := false,
    completedAt := none }

def c4Goal : Goal :=
  { status := Status.active, progress := 0, milestones := [c4A, c4B],
    completedMilestones := 0, actualCompletedAt := none }

theorem c4_witness :
    completeMilestoneRoute 3 c4Goal "b" =
      .error (.dependenciesUnmet (unmetDependencies c4Goal c4B)) ∧
    unmetDependencies c4Goal c4B ≠ [] ∧
    storedAfterRoute 3 c4Goal "b" = c4Goal :=
  c4_unmet_refused 3 c4Goal "b" c4B (by decide) rfl ⟨"a", by decide, c4A, by decide, rfl⟩

/-- C8 counterexample inputs: milestone `m1` with an existing dependency
on `a`. -/
def c8A : Milestone :=
  { id := "a", title := "A", order := 0, dependencies := [], isCompleted := false,
    completedAt := none }

def c8M : Milestone :=
  { id := "m1", title := "M", order := 1, dependencies := ["a"], isCompleted := false,
    completedAt := none }

def c8Goal : Goal :=
  { status := Status.active, progress := 0, milestones := [c8A, c8M],
    completedMilestones := 0, actualCompletedAt := none }

/-- C8 counterexample: the claim says `setDependencies(g, m.id, [m.id])`
returns a `SelfReference` validation error and leaves `m.dependencies`
unchanged; the route instead answers success and overwrites the
dependency list with the filtered (empty) candidate list, changing it
from `["a"]` to `[]`.  (No self-reference error exists anywhere in the
route's error responses.) -/
theorem c8_counterexample :
    setDependenciesRoute c8Goal "m1" ["m1"] =
      .ok { c8Goal with milestones := [c8A, { c8M with dependencies := [] }] } ∧
    c8M.dependencies = ["a"] := ⟨rfl, rfl⟩

/-- C8 amended: the dependency-edit route never reports a self-reference;
it silently drops the milestone's own id (and any unknown id) from the
candidate list, so `setDependencies(g, m.id, [m.id])` succeeds and
overwrites `m.dependencies` with the empty list — the previous list is
preserved only when it was already empty. -/
theorem c8_amended (g : Goal) (mid : String) (m : Milestone)
    (hfind : findMilestone g.milestones mid = some m) :
    setDependenciesRoute g mid [mid] =
      .ok { g with milestones := setDepsFirst g.milestones mid [] } := by
  have hval : List.filter
      (fun depId => (findMilestone g.milestones depId).isSome && !decide (depId = mid))
      [mid] = [] := by
    simp
  simp only [setDependenciesRoute, hfind]
  simp

theorem c8_amended_witness :
    setDependenciesRoute c8Goal "m1" ["m1"] =
      .ok { c8Goal with milestones := setDepsFirst c8Goal.milestones "m1" [] } :=
  c8_amended c8Goal "m1" c8M (by decide)

/-- C6: progress recomputation is idempotent — recomputing a second time
with no intervening milestone change (at any later timestamp) returns an
identical goal: same progress, same completed-milestone count, same
status, same completion timestamp. -/
theorem c6_recompute_idempotent (g : Goal) (now₁ now₂ : Nat) :
    updateProgress now₂ (updateProgress now₁ g) = updateProgress now₁ g := by
  rw [updateProgress_eq now₁ g]
  by_cases h1 : progOf g.milestones = 100 ∧ g.status ≠ Status.completed
  · rw [if_pos h1, if_pos h1, updateProgress_eq now₂]
    dsimp only
    rw [if_neg (by simp), if_neg (by simp), if_neg (by simp)]
  · rw [if_neg h1, if_neg h1]
    by_cases h2 : progOf g.milestones > 0 ∧ g.status = Status.planning
    · rw [if_pos h2, updateProgress_eq now₂]
      dsimp only
      rw [if_neg ?hc1, if_neg ?hc1]
      case hc1 =>
        rintro ⟨hc, -⟩
        exact h1 ⟨hc, by rw [h2.2]; decide⟩
      rw [if_neg (by simp)]
    · rw [if_neg h2, updateProgress_eq now₂]
      dsimp only
      rw [if_neg h1, if_neg h1, if_neg h2]

/-- C1 counterexample input: a goal with 40 milestones, 23 of them
completed.  The exact percentage is 57.5, whose round-half-up is 58; the
double computation yields 57.49999999999999, which `Math.round` takes
to 57. -/
def c1Goal : Goal :=
  { status := Status.active, progress := 0,
    milestones := (List.range 40).map (fun i =>
      { id := toString i, title := toString i, order := i, dependencies := [],
        isCompleted := decide (i < 23), completedAt := none }),
    completedMilestones := 0, actualCompletedAt := none }

/-- C1 counterexample: the claim says recomputed progress equals
round-half-up of the exact percentage for every goal; at 23 of 40
completed the code computes 57 while round-half-up gives 58. -/
theorem c1_counterexample :
    c1Goal.milestones.length = 40 ∧ countCompleted c1Goal.milestones = 23 ∧
    (updateProgress 0 c1Goal).progress = 57 ∧
    specRound (countCompleted c1Goal.milestones) c1Goal.milestones.length = 58 ∧
    (updateProgress 0 c1Goal).progress ≠
      specRound (countCompleted c1Goal.milestones) c1Goal.milestones.length := by
  have hl : c1Goal.milestones.length = 40 := by decide
  have hc : countCompleted c1Goal.milestones = 23 := by decide
  have hp : (updateProgress 0 c1Goal).progress = 57 := by decide
  have hs : specRound (countCompleted c1Goal.milestones) c1Goal.milestones.length = 58 := by
    rw [hl, hc, specRound_eq_nat 23 40 (by norm_num)]
    decide
  exact ⟨hl, hc, hp, hs, by rw [hp, hs]; decide⟩

/-- C1 amended: recomputed progress equals `Math.round` applied to the
IEEE-754 double value of `(completedCount / total) * 100` (and 0 for a
goal with no milestones).  This agrees with exact round-half-up of
`100 * completedCount / total` for every `total ≤ 39` — in particular
total 8 with 3 completed gives 38 — but not universally (total 40 with
23 completed gives 57, not 58).  The same holds for the progress written
by the page's `persistMilestones`, which for an empty list keeps the
previous value. -/
theorem c1_amended (g : Goal) (now : Nat) (hle : g.milestones.length ≤ 39)
    (l : List Milestone) (p : Int) (hl : l.length ≤ 39) :
    (updateProgress now g).progress =
      (if g.milestones.length = 0 then 0
       else specRound (countCompleted g.milestones) g.milestones.length) ∧
    persistProgress l p =
      (if l.length = 0 then p else specRound (countCompleted l) l.length) := by
  constructor
  · rw [updateProgress_progress]
    unfold progOf
    by_cases hn : g.milestones.length = 0
    · simp [hn]
    · have hpos : 0 < g.milestones.length := Nat.pos_of_ne_zero hn
      rw [if_pos hpos, if_neg hn]
      have hball := percentBall g.milestones.length (by omega) hpos
        (countCompleted g.milestones) (countCompleted_le_length _)
      rw [hball.1, specRound_eq_nat _ _ hpos]
  · unfold persistProgress
    by_cases hn : l.length = 0
    · simp [hn]
    · have hpos : 0 < l.length := Nat.pos_of_ne_zero hn
      rw [if_pos hpos, if_neg hn]
      have hball := percentBall l.length (by omega) hpos (countCompleted l)
        (countCompleted_le_length _)
      rw [hball.1, specRound_eq_nat _ _ hpos]

/-- C1 amended witness input: 8 milestones, 3 completed. -/
def c1WGoal : Goal :=
  { status := Status.active, progress := 0,
    milestones := (List.range 8).map (fun i =>
      { id := toString i, title := toString i, order := i, dependencies := [],
        isCompleted := decide (i < 3), completedAt := none }),
    completedMilestones := 0, actualCompletedAt := none }

theorem c1_amended_witness :
    ((updateProgress 0 c1WGoal).progress =
      (if c1WGoal.milestones.length = 0 then 0
       else specRound (countCompleted c1WGoal.milestones) c1WGoal.milestones.length) ∧
    persistProgress [] 7 =
      (if ([] : List Milestone).length = 0 then 7
       else specRound (countCompleted []) ([] : List Milestone).length)) ∧
    (updateProgress 0 c1WGoal).progress = 38 :=
  ⟨c1_amended c1WGoal 0 (by decide) [] 7 (by decide), by decide⟩

/-- C5 counterexample input: a goal with 200 milestones, 199 completed.
The double value of `(199/200)*100` is exactly 99.5, which `Math.round`
takes to 100, so the goal is auto-completed with a milestone still
incomplete. -/
def c5Goal : Goal :=
  { status := Status.active, progress := 99,
    milestones := (List.range 200).map (fun i =>
      { id := toString i, title := toString i, order := i, dependencies := [],
        isCompleted := decide (i < 199), completedAt := none }),
    completedMilestones := 199, actualCompletedAt := none }

set_option maxRecDepth 20000 in
/-- C5 counterexample: the claim says a goal reaches `completed` exactly
when its last incomplete milestone is completed; this goal becomes
`completed` (with a stamped timestamp) while one of its 200 milestones
is still incomplete. -/
theorem c5_counterexample :
    countCompleted c5Goal.milestones = 199 ∧ c5Goal.milestones.length = 200 ∧
    (updateProgress 7 c5Goal).progress = 100 ∧
    (updateProgress 7 c5Goal).status = Status.completed ∧
    (updateProgress 7 c5Goal).actualCompletedAt = some 7 := by decide

/-- C5 amended: `updateProgress` applies exactly the two claimed
automatic transitions and no others, with the trigger `progress == 100`
equivalent to "all milestones completed" only for goals with at most 39
milestones: under that bound the status becomes `completed` (with a
stamped timestamp) iff the goal has milestones, all are completed and
the status was not already `completed`; it becomes `active` iff at least
one milestone is completed and the status was `planning`; otherwise it
is unchanged.  For larger goals the double rounding can reach 100 early
(199 of 200 completed), firing the completion transition before the last
milestone. -/
theorem c5_amended (g : Goal) (now : Nat) (hle : g.milestones.length ≤ 39) :
    ((updateProgress now g).status =
      if (0 < g.milestones.length ∧ countCompleted g.milestones = g.milestones.length) ∧
          g.status ≠ Status.completed then Status.completed
      else if 0 < countCompleted g.milestones ∧ g.status = Status.planning then Status.active
      else g.status) ∧
    ((updateProgress now g).actualCompletedAt =
      if (0 < g.milestones.length ∧ countCompleted g.milestones = g.milestones.length) ∧
          g.status ≠ Status.completed then some now
      else g.actualCompletedAt) := by
  have h100 : progOf g.milestones = 100 ↔
      (0 < g.milestones.length ∧ countCompleted g.milestones = g.milestones.length) := by
    unfold progOf
    by_cases hn : g.milestones.length = 0
    · simp [hn]
    · have hpos : 0 < g.milestones.length := Nat.pos_of_ne_zero hn
      have hball := percentBall g.milestones.length (by omega) hpos
        (countCompleted g.milestones) (countCompleted_le_length _)
      rw [if_pos hpos]
      constructor
      · intro h
        exact ⟨hpos, hball.2.1.mp (by exact_mod_cast h)⟩
      · rintro ⟨-, hk⟩
        exact_mod_cast congrArg (Nat.cast : ℕ → ℤ) (hball.2.1.mpr hk)
  have hgt : progOf g.milestones > 0 ↔ 0 < countCompleted g.milestones := by
    unfold progOf
    by_cases hn : g.milestones.length = 0
    · have : g.milestones = [] := List.length_eq_zero.mp hn
      simp [hn, this, countCompleted]
    · have hpos : 0 < g.milestones.length := Nat.pos_of_ne_zero hn
      have hball := percentBall g.milestones.length (by omega) hpos
        (countCompleted g.milestones) (countCompleted_le_length _)
      rw [if_pos hpos]
      constructor
      · intro h
        exact hball.2.2.mp (by exact_mod_cast h)
      · intro h
        exact_mod_cast hball.2.2.mpr h
  have ha : (progOf g.milestones = 100 ∧ g.status ≠ Status.completed) ↔
      ((0 < g.milestones.length ∧ countCompleted g.milestones = g.milestones.length) ∧
        g.status ≠ Status.completed) := by rw [h100]
  have hb : (progOf g.milestones > 0 ∧ g.status = Status.planning) ↔
      (0 < countCompleted g.milestones ∧ g.status = Status.planning) := by rw [hgt]
  rw [updateProgress_eq]
  dsimp only
  constructor
  · simp only [ha, hb]
  · simp only [ha]

/-- C5 amended witness input: a 3-milestone active goal whose last
milestone has just been completed. -/
def c5WGoal : Goal :=
  { status := Status.active, progress := 67,
    milestones :=
      [{ id := "a", title := "A", order := 0, dependencies := [], isCompleted := true,
         completedAt := some 1 },
       { id := "b", title := "B", order := 1, dependencies := [], isCompleted := true,
         completedAt := some 2 },
       { id := "c", title := "C", order := 2, dependencies := [], isCompleted := true,
         completedAt := some 3 }],
    completedMilestones := 2, actualCompletedAt := none }

theorem c5_amended_witness :
    (((updateProgress 5 c5WGoal).status =
      if (0 < c5WGoal.milestones.length ∧
            countCompleted c5WGoal.milestones = c5WGoal.milestones.length) ∧
          c5WGoal.status ≠ Status.completed then Status.completed
      else if 0 < countCompleted c5WGoal.milestones ∧ c5WGoal.status = Status.planning then
        Status.active
      else c5WGoal.status) ∧
    ((updateProgress 5 c5WGoal).actualCompletedAt =
      if (0 < c5WGoal.milestones.length ∧
            countCompleted c5WGoal.milestones = c5WGoal.milestones.length) ∧
          c5WGoal.status ≠ Status.completed then some 5
      else c5WGoal.actualCompletedAt)) ∧
    (updateProgress 5 c5WGoal).status = Status.completed :=
  ⟨c5_amended c5WGoal 5 (by decide), by decide⟩

/-- One completion request cannot decrease the stored progress of a goal
whose progress agrees with its milestone state, and it preserves that
agreement: an error response leaves the goal untouched, and a success
recomputes progress with one more completed milestone out of the same
total. -/
theorem storedAfterRoute_step (now : Nat) (g : Goal) (mid : String) (hs : Synced g) :
    Synced (storedAfterRoute now g mid) ∧
      g.progress ≤ (storedAfterRoute now g mid).progress := by
  unfold storedAfterRoute
  cases hroute : completeMilestoneRoute now g mid with
  | error e => exact ⟨hs, le_rfl⟩
  | ok g' =>
      unfold completeMilestoneRoute at hroute
      cases hfind : findMilestone g.milestones mid with
      | none =>
          rw [hfind] at hroute
          simp at hroute
      | some m =>
          rw [hfind] at hroute
          dsimp only at hroute
          by_cases hc : m.isCompleted = true
          · rw [if_pos hc] at hroute
            simp at hroute
          · rw [if_neg hc] at hroute
            by_cases hu : unmetDependencies g m ≠ []
            · rw [if_pos hu] at hroute
              simp at hroute
            · rw [if_neg hu] at hroute
              have hcm : completeMilestone now g mid =
                  .ok (updateProgress now
                    { g with milestones := setCompletedFirst g.milestones mid now }) := by
                unfold completeMilestone
                rw [hfind]
              rw [hcm] at hroute
              simp only [Except.ok.injEq] at hroute
              subst hroute
              have hlen : (setCompletedFirst g.milestones mid now).length =
                  g.milestones.length := setCompletedFirst_length _ _ _
              have hcnt : countCompleted (setCompletedFirst g.milestones mid now) =
                  countCompleted g.milestones + 1 :=
                setCompletedFirst_count _ _ _ m hfind (by simpa using hc)
              have hpos : 0 < g.milestones.length := findMilestone_length_pos _ _ _ hfind
              refine ⟨updateProgress_synced _ _, ?_⟩
              rw [updateProgress_progress]
              unfold Synced at hs
              rw [hs]
              unfold progOf
              dsimp only
              rw [hlen, hcnt, if_pos hpos, if_pos hpos]
              exact_mod_cast jsPercent_mono (countCompleted g.milestones)
                (countCompleted g.milestones + 1) g.milestones.length hpos (by omega)

/-- C7: starting from a goal whose stored progress agrees with its
milestone state (as every recomputation leaves it), the stored progress
is non-decreasing across any sequence of completion requests handled by
the milestone-completion route — each request either fails and leaves
the goal untouched or completes one more milestone and recomputes — and
the agreement is preserved along the way. -/
theorem c7_progress_monotone (now : Nat) (g : Goal) (mids : List String) (hs : Synced g) :
    Synced (runCompletions now g mids) ∧
      g.progress ≤ (runCompletions now g mids).progress := by
  induction mids generalizing g with
  | nil => exact ⟨hs, le_rfl⟩
  | cons mid rest ih =>
      have hstep := storedAfterRoute_step now g mid hs
      have hrest := ih (storedAfterRoute now g mid) hstep.1
      simp only [runCompletions, List.foldl_cons] at hrest ⊢
      exact ⟨hrest.1, le_trans hstep.2 hrest.2⟩

/-- C7 witness input: a synced two-milestone goal and two successive
completion requests. -/
def c7Goal : Goal :=
  { status := Status.active, progress := 0,
    milestones :=
      [{ id := "a", title := "A", order := 0, dependencies := [], isCompleted := false,
         completedAt := none },
       { id := "b", title := "B", order := 1, dependencies := ["a"], isCompleted := false,
         completedAt := none }],
    completedMilestones := 0, actualCompletedAt := none }

theorem c7_witness :
    Synced (runCompletions 0 c7Goal ["a", "b"]) ∧
      c7Goal.progress ≤ (runCompletions 0 c7Goal ["a", "b"]).progress :=
  c7_progress_monotone 0 c7Goal ["a", "b"] rfl

end GoalPlatform
